import Mathlib

/-!
Shallow embedding of the workspace server core (src/server/index.js):
the file-operation handlers, the filesystem watcher broadcast path, and
the sandboxed code-execution subsystem, together with theorems settling
the specification claims about them.
-/

set_option autoImplicit false

/-- A filesystem path, as the list of its segments from the filesystem root
(absolute, POSIX-style). -/
abbrev SPath := List String

/-- Node `path.join`-style segment normalization: empty and `.` segments are
dropped, `..` removes the preceding segment (and is dropped at the root, as
for an absolute base path).  The accumulator holds the processed segments in
reverse order. -/
def normSegs : List String → List String → List String
  | acc, [] => acc.reverse
  | acc, s :: rest =>
    if s = "" ∨ s = "." then normSegs acc rest
    else if s = ".." then normSegs acc.tail rest
    else normSegs (s :: acc) rest

/-- Split a path string at slashes (the segment decomposition `path.join`
performs on its POSIX-style argument). -/
def splitSegsAux : List Char → List Char → List String
  | [], cur => [String.mk cur.reverse]
  | c :: rest, cur =>
    if c = '/' then String.mk cur.reverse :: splitSegsAux rest []
    else splitSegsAux rest (c :: cur)

/-- Split a string into its slash-separated segments. -/
def splitSegs (s : String) : List String :=
  splitSegsAux s.data []

/-- Concatenate strings with a separator between consecutive elements. -/
def joinWith (sep : String) : List String → String
  | [] => ("")
  | [s] => s
  | s :: rest => s ++ sep ++ joinWith sep rest

/-- `path.join(base, rel)` from the source (lines 172, 190, 232, 250):
append the relative path's segments to the absolute base and normalize.
No confinement check is performed — exactly as in the source. -/
def joinPath (base : SPath) (rel : String) : SPath :=
  normSegs base.reverse (splitSegs rel)

/-- `WORKSPACE_DIR = path.join(__dirname, 'workspace')` (line 20).  The
absolute location is deployment-dependent; we fix the server directory at
`/server`, so the workspace root is `/server/workspace`. -/
def workspaceDir : SPath := [("server"), ("workspace")]

/-- Whether `p` lies inside the directory tree rooted at `root`. -/
def isUnder (root p : SPath) : Bool :=
  root.isPrefixOf p

/-- The host filesystem, modelled as an association list from absolute file
paths to their content (directories are implicit as path prefixes). -/
abbrev FS := List (SPath × String)

/-- Read the content stored at `p`, if any. -/
def fsRead (fs : FS) (p : SPath) : Option String :=
  (fs.find? (fun e => e.1 == p)).map (fun e => e.2)

/-- Overwrite (or create) the file at `p` with content `c`
(`fs.writeFile`; `fs.ensureDir` is implicit since directories are). -/
def fsWrite (fs : FS) (p : SPath) (c : String) : FS :=
  (p, c) :: fs.filter (fun e => !(e.1 == p))

/-- `fs.remove` from fs-extra: like `rm -rf`, removes the file or the whole
directory subtree at `p`; succeeds (as a no-op) when `p` does not exist. -/
def fsRemove (fs : FS) (p : SPath) : FS :=
  fs.filter (fun e => !(p.isPrefixOf e.1))

/-- The outbound wire events the server sends (§6 of the protocol),
restricted to the ones the claims are about. -/
inductive OutMsg where
  | consoleOutput (output : String)
  | executionResult (result error : Option String) (language : String)
  | executionError (error : String)
  | fileContent (path content : String)
  | fileWritten (path : String)
  | fileCreated (path : String)
  | fileDeleted (path : String)
  | fileChanged (path content : String)
  | errorMsg (message : String)
  deriving DecidableEq, Repr

/-- `readFile` (lines 170-186): join the payload path onto the workspace
root with no confinement check, read at the joined path, and send the
content back; a read failure (missing file) is reported as an error event. -/
def readFile (fs : FS) (filePath : String) : OutMsg :=
  let fullPath := joinPath workspaceDir filePath
  match fsRead fs fullPath with
  | some content => .fileContent filePath content
  | none => .errorMsg (("Failed to read file: ENOENT: no such file or directory"))

/-- `writeFile` (lines 188-204): join onto the root, ensure parent
directories, write the full content, and acknowledge with `file_written`. -/
def writeFile (fs : FS) (filePath content : String) : FS × OutMsg :=
  let fullPath := joinPath workspaceDir filePath
  (fsWrite fs fullPath content, .fileWritten filePath)

/-- `createFile` (lines 230-246): identical mutation to `writeFile` (the
payload content defaults to the empty string), acknowledged with
`file_created`. -/
def createFile (fs : FS) (filePath : String) (content : Option String) : FS × OutMsg :=
  let c := content.getD ("")
  let fullPath := joinPath workspaceDir filePath
  (fsWrite fs fullPath c, .fileCreated filePath)

/-- `deleteFile` (lines 248-263): `fs.remove` at the joined path, then
acknowledge with `file_deleted`.  `fs.remove` never fails on a missing
path, so the error branch of the source is unreachable for missing paths. -/
def deleteFile (fs : FS) (filePath : String) : FS × OutMsg :=
  let fullPath := joinPath workspaceDir filePath
  (fsRemove fs fullPath, .fileDeleted filePath)

/-- A registered client connection: its id and whether its transport is
currently open (`ws.readyState === WebSocket.OPEN`). -/
structure Conn where
  id : Nat
  isOpen : Bool
  deriving DecidableEq, Repr

/-- `broadcastToAll` (lines 46-52): send `msg` to every registered
connection whose transport is open; the result lists the deliveries as
(connection id, message) pairs in registry order. -/
def broadcastToAll (conns : List Conn) (msg : OutMsg) : List (Nat × OutMsg) :=
  (conns.filter (fun c => c.isOpen)).map (fun c => (c.id, msg))

/-- A filesystem notification as raised by the chokidar watcher. -/
inductive FsEvent where
  | add (p : SPath)
  | change (p : SPath)
  | unlink (p : SPath)
  deriving DecidableEq, Repr

/-- Modelled from chokidar's documented semantics: writing to a path that
does not yet exist raises `add`; overwriting an existing file raises
`change`. -/
def fsEventOfWrite (fs : FS) (full : SPath) : FsEvent :=
  match fsRead fs full with
  | some _ => .change full
  | none => .add full

/-- Whether a path segment starts with a dot. -/
def startsDot (s : String) : Bool :=
  match s.data with
  | [] => false
  | c :: _ => c = '.'

/-- The watcher's ignore pattern (line 32) matches dot-prefixed entries:
any path with a segment starting with a dot is ignored. -/
def isHiddenPath (p : SPath) : Bool :=
  p.any (fun s => startsDot s)

/-- `path.relative(WORKSPACE_DIR, filePath)` for paths under the watched
root: drop the root segments and rejoin with slashes. -/
def relativeTo (root p : SPath) : String :=
  joinWith ("/") (p.drop root.length)

/-- The watcher registration (lines 36-43): a handler is installed for
`change` events ONLY; it re-reads the changed file and produces one
`file_changed` message with the relative path and current full content.
`add` and `unlink` events have no handler and produce nothing; ignored
(hidden) paths never fire. -/
def watcherEmit (fs : FS) (ev : FsEvent) : List OutMsg :=
  match ev with
  | .change p =>
    if isHiddenPath p then []
    else [.fileChanged (relativeTo workspaceDir p) ((fsRead fs p).getD (""))]
  | _ => []

/-- One workspace write followed by the watcher/broadcast pipeline: the
write mutates the store, chokidar raises the corresponding event, the
watcher handler runs against the post-write filesystem, and each resulting
message is broadcast to all open connections. -/
def writeAndNotify (conns : List Conn) (fs : FS) (filePath content : String) :
    FS × List (Nat × OutMsg) :=
  let full := joinPath workspaceDir filePath
  let ev := fsEventOfWrite fs full
  let fs2 := fsWrite fs full content
  (fs2, ((watcherEmit fs2 ev).map (fun m => broadcastToAll conns m)).flatten)

/-- Values of the JavaScript fragment the sandbox runs: the primitives
(`undefined`, `null`, booleans, integer numbers, strings).  In this
fragment `typeof v === 'object'` holds exactly for `null`. -/
inductive JsValue where
  | undef
  | nullv
  | bool (b : Bool)
  | num (n : Int)
  | str (s : String)
  deriving DecidableEq, Repr

/-- `String(v)` on the fragment's values. -/
def jsString : JsValue → String
  | .undef => ("undefined")
  | .nullv => ("null")
  | .bool b => if b then ("true") else ("false")
  | .num n => toString n
  | .str s => s

/-- Whether `typeof v === 'object'` (only `null` among the primitives). -/
def isObjectType : JsValue → Bool
  | .nullv => true
  | _ => false

/-- `JSON.stringify(v, null, 2)` on the fragment's values. -/
def jsonStringify : JsValue → String
  | .undef => ("undefined")
  | .nullv => ("null")
  | .bool b => if b then ("true") else ("false")
  | .num n => toString n
  | .str s => ("\"") ++ s ++ ("\"")

/-- The display coercion the source uses twice (lines 129-131 and 145):
`typeof x === 'object' ? JSON.stringify(x, null, 2) : String(x)`. -/
def jsDisplay (v : JsValue) : String :=
  if isObjectType v then jsonStringify v else jsString v

/-- One console line (lines 128-132): each argument is display-coerced and
the pieces are joined with single spaces. -/
def consoleLine (args : List JsValue) : String :=
  joinWith (" ") (args.map jsDisplay)

/-- JavaScript `+` on the fragment: numeric addition on two numbers,
string concatenation otherwise (the cases exercised by the claims are
number-number and string-involving; numeric coercion of booleans and null
is outside the modelled fragment). -/
def jsAdd (a b : JsValue) : JsValue :=
  match a, b with
  | .num x, .num y => .num (x + y)
  | _, _ => .str (jsString a ++ jsString b)

/-- Programs of the JavaScript fragment submitted to the sandbox. -/
inductive Expr where
  | lit (v : JsValue)
  | add (a b : Expr)
  | consoleLog (args : List Expr)
  | seq (a b : Expr)
  | throwErr (msg : String)
  | loopForever

/-- How one sandbox run ends: a value, a thrown runtime error, or an abort
by the wall-clock timeout. -/
inductive Outcome where
  | normal (v : JsValue)
  | thrown (msg : String)
  | timeout
  deriving DecidableEq, Repr

mutual

/-- Fuel-bounded evaluation of the fragment, modelling `vm.run` under the
vm2 wall-clock timeout: the fuel stands for the remaining time budget,
consumed by loop iterations (straight-line work is counted as free, since
only unbounded iteration can exceed the wall clock); exhausting it aborts
with a timeout.  Evaluation returns the console lines emitted so far (they
are streamed to the connection as they happen, so they survive a later
error or timeout) together with the outcome. -/
def evalE : Nat → Expr → List String × Outcome
  | _, .lit v => ([], .normal v)
  | fuel, .add a b =>
    (match evalE fuel a with
     | (o1, .normal v1) =>
       (match evalE fuel b with
        | (o2, .normal v2) => (o1 ++ o2, .normal (jsAdd v1 v2))
        | (o2, oc) => (o1 ++ o2, oc))
     | r => r)
  | fuel, .consoleLog args =>
    (match evalArgs fuel args with
     | (o, .inl vs) => (o ++ [consoleLine vs], .normal .undef)
     | (o, .inr oc) => (o, oc))
  | fuel, .seq a b =>
    (match evalE fuel a with
     | (o1, .normal _) =>
       (match evalE fuel b with
        | (o2, oc) => (o1 ++ o2, oc))
     | r => r)
  | _, .throwErr m => ([], .thrown m)
  | 0, .loopForever => ([], .timeout)
  | fuel + 1, .loopForever => evalE fuel .loopForever
termination_by fuel e => (fuel, sizeOf e)

/-- Left-to-right evaluation of an argument list; a thrown error or
timeout in one argument aborts the rest. -/
def evalArgs : Nat → List Expr → List String × (List JsValue ⊕ Outcome)
  | _, [] => ([], .inl [])
  | fuel, a :: rest =>
    (match evalE fuel a with
     | (o1, .normal v) =>
       (match evalArgs fuel rest with
        | (o2, .inl vs) => (o1 ++ o2, .inl (v :: vs))
        | (o2, .inr oc) => (o1 ++ o2, .inr oc))
     | (o1, oc) => (o1, .inr oc))
termination_by fuel l => (fuel, sizeOf l)

end

/-- The vm2 timeout configured at line 123: 5000 ms. -/
def vmTimeout : Nat := 5000

/-- The message of the `VMError` vm2 throws when the timeout fires. -/
def timeoutMessage : String := ("Script execution timed out after 5000ms")

/-- `vm.run(code)` on a freshly constructed VM with the 5000 ms timeout. -/
def vmRun (code : Expr) : List String × Outcome :=
  evalE vmTimeout code

/-- An `execute_code` request payload: `{code, language}`, the language
field optional (line 115 defaults it). -/
structure ExecuteReq where
  code : Expr
  language : Option String

/-- The `result` field of the `execution_result` message as a function of
the run's outcome (lines 142-149): a normal completion with a defined
value is display-coerced; an undefined value, a thrown error and a
timeout all leave `result` unset (null). -/
def resultField : Outcome → Option String
  | .normal v => if v = .undef then none else some (jsDisplay v)
  | .thrown _ => none
  | .timeout => none

/-- The `error` field of the `execution_result` message as a function of
the run's outcome: null on normal completion, the thrown message
otherwise (a timeout abort surfaces as a thrown `VMError`). -/
def errorField : Outcome → Option String
  | .normal _ => none
  | .thrown m => some m
  | .timeout => some timeoutMessage

/-- `executeCode` (lines 115-167): default the language to `javascript`;
for `javascript` or `js` construct a fresh VM and run the code, streaming
each console line as its own `console_output` event and ending with one
`execution_result` carrying the coerced return value or the error message;
for any other language, attempt no execution and send a single
`execution_result` whose error interpolates the language. -/
def executeCode (req : ExecuteReq) : List OutMsg :=
  let language := req.language.getD ("javascript")
  if language = ("javascript") ∨ language = ("js") then
    let run := vmRun req.code
    (run.1.map OutMsg.consoleOutput) ++
      [.executionResult (resultField run.2) (errorField run.2) language]
  else
    [.executionResult none (some (("Unsupported language: ") ++ language)) language]

/-- An inbound request, as dispatched by `handleWebSocketMessage`
(lines 81-112), restricted to the kinds the claims are about. -/
inductive Request where
  | execute_code (req : ExecuteReq)
  | read_file (filePath : String)
  | write_file (filePath content : String)
  | create_file (filePath : String) (content : Option String)
  | delete_file (filePath : String)

/-- Handle one request against the workspace store, returning the new
store and the messages sent to the requesting connection.  `execute_code`
constructs a fresh VM per call (line 122), so it neither reads nor writes
any server state that could influence another execution. -/
def handleRequest (fs : FS) (req : Request) : FS × List OutMsg :=
  match req with
  | .execute_code r => (fs, executeCode r)
  | .read_file p => (fs, [readFile fs p])
  | .write_file p c => ((writeFile fs p c).1, [(writeFile fs p c).2])
  | .create_file p c => ((createFile fs p c).1, [(createFile fs p c).2])
  | .delete_file p => ((deleteFile fs p).1, [(deleteFile fs p).2])

/-- The workspace store after a sequence of requests has been handled. -/
def runRequests (fs : FS) : List Request → FS
  | [] => fs
  | r :: rest => runRequests (handleRequest fs r).1 rest

/-! ## Helper lemmas -/

/-- The infinite loop exhausts any fuel budget and ends in a timeout. -/
theorem evalE_loop (fuel : Nat) : evalE fuel Expr.loopForever = ([], Outcome.timeout) := by
  induction fuel with
  | zero => simp [evalE]
  | succ n ih => simp [evalE, ih]

/-- Reading back a freshly written path yields the written content. -/
theorem fsRead_fsWrite_self (fs : FS) (p : SPath) (c : String) :
    fsRead (fsWrite fs p c) p = some c := by
  simp [fsRead, fsWrite, List.find?]

/-- After `fs.remove p`, no path inside the removed subtree resolves. -/
theorem fsRead_fsRemove_of_pref (fs : FS) (p q : SPath) (h : p.isPrefixOf q = true) :
    fsRead (fsRemove fs p) q = none := by
  induction fs with
  | nil => rfl
  | cons e fs ih =>
    by_cases hk : p.isPrefixOf e.1
    · simpa [fsRemove, List.filter_cons, hk] using ih
    · have hne : (e.1 == q) = false := by
        rw [beq_eq_false_iff_ne]
        intro hEq
        rw [hEq] at hk
        exact hk h
      simpa [fsRemove, fsRead, List.filter_cons, hk, List.find?, hne] using ih

/-- Retagging the `execution_result` language leaves console events alone. -/
def setLang (l : String) : OutMsg → OutMsg
  | .executionResult r e _ => .executionResult r e l
  | m => m

/-! ## Claim theorems -/

/-- A host filesystem holding the real `/etc/passwd` (and nothing inside
the workspace root). -/
def hostFs : FS := [([("etc"), ("passwd")], ("root:x:0:0:root:/root:/bin/bash"))]

/-- C1: the claim says a path payload resolving outside the workspace root
must fail with a resource error and never reach the filesystem.  The code
has no confinement check: `path.join` resolves `../../etc/passwd` to a
path outside the root (first conjunct) and `readFile` then reads that host
path and returns its content to the requester (second conjunct). -/
theorem read_file_traversal_returns_host_content :
    isUnder workspaceDir (joinPath workspaceDir ("../../etc/passwd")) = false ∧
    readFile hostFs ("../../etc/passwd") =
      OutMsg.fileContent ("../../etc/passwd") ("root:x:0:0:root:/root:/bin/bash") := by
  exact ⟨by decide, by decide⟩

/-- Two open registered connections. -/
def demoConns : List Conn := [⟨1, true⟩, ⟨2, true⟩]

/-- C2 counterexample: the first write that creates `a.txt` raises a
chokidar `add` event, for which no handler is registered, so no connection
receives any `file_changed` broadcast — refuting the claim for creating
writes even though two open connections are registered. -/
theorem first_write_creating_file_broadcasts_nothing :
    (writeAndNotify demoConns [] ("a.txt") ("X")).2 = [] ∧
    (demoConns.filter (fun c => c.isOpen)).length = 2 := by
  exact ⟨by decide, by decide⟩

/-- C2 (amended): for a successful write that MODIFIES an existing,
non-hidden file, every connection registered at the moment of the mutation
whose transport is open receives exactly one `file_changed` event carrying
the file's relative path and its new full content; writes that create a
file raise `add`, which the watcher does not handle. -/
theorem overwrite_broadcast_exactly_once (conns : List Conn) (fs : FS) (p c old : String)
    (hex : fsRead fs (joinPath workspaceDir p) = some old)
    (hvis : isHiddenPath (joinPath workspaceDir p) = false) :
    (writeAndNotify conns fs p c).2 =
      (conns.filter (fun cn => cn.isOpen)).map
        (fun cn => (cn.id,
          OutMsg.fileChanged (relativeTo workspaceDir (joinPath workspaceDir p)) c)) := by
  have hev : fsEventOfWrite fs (joinPath workspaceDir p) =
      FsEvent.change (joinPath workspaceDir p) := by
    unfold fsEventOfWrite
    rw [hex]
  simp only [writeAndNotify]
  rw [hev]
  simp [watcherEmit, hvis, fsRead_fsWrite_self, broadcastToAll]

/-- Three registered connections, the middle one with a closed transport. -/
def demoConns3 : List Conn := [⟨1, true⟩, ⟨2, false⟩, ⟨3, true⟩]

/-- A workspace already holding `a.txt`. -/
def demoFsA : FS := [(joinPath workspaceDir ("a.txt"), ("old"))]

/-- Witness for C2 (amended): overwriting the existing `a.txt` with `X`
delivers exactly one `file_changed` to each of the two open connections. -/
theorem overwrite_broadcast_exactly_once_witness :
    fsRead demoFsA (joinPath workspaceDir ("a.txt")) = some ("old") ∧
    isHiddenPath (joinPath workspaceDir ("a.txt")) = false ∧
    (writeAndNotify demoConns3 demoFsA ("a.txt") ("X")).2 =
      (demoConns3.filter (fun cn => cn.isOpen)).map
        (fun cn => (cn.id,
          OutMsg.fileChanged (relativeTo workspaceDir (joinPath workspaceDir ("a.txt"))) ("X"))) :=
  ⟨by decide, by decide,
    overwrite_broadcast_exactly_once demoConns3 demoFsA ("a.txt") ("X") ("old")
      (by decide) (by decide)⟩

/-- C3: an `execute_code` whose supported-language source exceeds the
5000 ms budget is aborted: the connection receives the console lines
streamed before the abort and then exactly one `execution_result` whose
`error` is the timeout message and whose `result` is null.  `executeCode`
is a total function of the request, so the response always arrives — the
request cannot hang. -/
theorem timeout_aborts_with_error_result (req : ExecuteReq) (outs : List String)
    (hsup : req.language.getD ("javascript") = ("javascript") ∨
      req.language.getD ("javascript") = ("js"))
    (hto : vmRun req.code = (outs, Outcome.timeout)) :
    executeCode req =
      outs.map OutMsg.consoleOutput ++
        [OutMsg.executionResult none (some timeoutMessage) (req.language.getD ("javascript"))] := by
  rcases hsup with h | h <;> simp [executeCode, h, hto, resultField, errorField]

/-- Witness for C3: the infinite loop under language `javascript` yields
the timeout `execution_result` with null result. -/
theorem timeout_aborts_with_error_result_witness :
    ((some ("javascript") : Option String).getD ("javascript") = ("javascript") ∨
      (some ("javascript") : Option String).getD ("javascript") = ("js")) ∧
    vmRun Expr.loopForever = ([], Outcome.timeout) ∧
    executeCode ⟨Expr.loopForever, some ("javascript")⟩ =
      List.map OutMsg.consoleOutput [] ++
        [OutMsg.executionResult none (some timeoutMessage) ("javascript")] :=
  ⟨Or.inl rfl, evalE_loop vmTimeout,
    timeout_aborts_with_error_result ⟨Expr.loopForever, some ("javascript")⟩ []
      (Or.inl rfl) (evalE_loop vmTimeout)⟩

/-- C4 counterexample: deleting a path that does not exist in the
workspace (the store is empty) is acknowledged with a `file_deleted`
success event — `fs.remove` is an `rm -rf`-style no-op on missing paths,
so no error is reported, refuting the claim's missing-path clause. -/
theorem delete_missing_path_silently_succeeds :
    (deleteFile [] ("nope.txt")).2 = OutMsg.fileDeleted ("nope.txt") ∧
    (deleteFile [] ("nope.txt")).1 = [] := by
  exact ⟨by decide, by decide⟩

/-- C4 (amended): `delete_file` succeeds on EVERY path, existing or not,
always acknowledging with `file_deleted`; on existing paths it removes the
file or recursively the whole directory subtree (afterwards no path under
the deleted one resolves); on missing paths it silently succeeds rather
than reporting an error. -/
theorem delete_removes_subtree_and_reports_success (fs : FS) (p : String) :
    (deleteFile fs p).2 = OutMsg.fileDeleted p ∧
    (∀ q : SPath, (joinPath workspaceDir p).isPrefixOf q = true →
      fsRead (deleteFile fs p).1 q = none) := by
  refine ⟨rfl, ?_⟩
  intro q hq
  exact fsRead_fsRemove_of_pref fs (joinPath workspaceDir p) q hq

/-- A workspace with a directory `d` holding one file, plus a sibling. -/
def demoFsD : FS :=
  [(joinPath workspaceDir ("d/x.txt"), ("1")), (joinPath workspaceDir ("z.txt"), ("3"))]

/-- Witness for C4 (amended): deleting directory `d` is acknowledged and
removes the file inside it. -/
theorem delete_removes_subtree_witness :
    (deleteFile demoFsD ("d")).2 = OutMsg.fileDeleted ("d") ∧
    ((joinPath workspaceDir ("d")).isPrefixOf (joinPath workspaceDir ("d/x.txt")) = true ∧
      fsRead (deleteFile demoFsD ("d")).1 (joinPath workspaceDir ("d/x.txt")) = none) :=
  ⟨(delete_removes_subtree_and_reports_success demoFsD ("d")).1,
    by decide,
    (delete_removes_subtree_and_reports_success demoFsD ("d")).2
      (joinPath workspaceDir ("d/x.txt")) (by decide)⟩

/-- C5 counterexample: for declared language `python` the emitted error is
the capitalized string `Unsupported language: python`, which differs from
the claim's `unsupported language: python`. -/
theorem unsupported_language_message_is_capitalized :
    executeCode ⟨Expr.lit JsValue.undef, some ("python")⟩ =
      [OutMsg.executionResult none (some ("Unsupported language: python")) ("python")] ∧
    (("Unsupported language: python") : String) ≠ ("unsupported language: python") := by
  exact ⟨by decide, by decide⟩

/-- C5 (amended): for every declared language other than the supported
dialect, no execution is attempted (no console event is emitted, even for
a looping program) and the single `execution_result` carries a null result
and the error string `Unsupported language: <language>` (capital U) with
the declared language interpolated. -/
theorem unsupported_language_rejected_without_execution (req : ExecuteReq)
    (h : ¬(req.language.getD ("javascript") = ("javascript") ∨
      req.language.getD ("javascript") = ("js"))) :
    executeCode req =
      [OutMsg.executionResult none
        (some (("Unsupported language: ") ++ req.language.getD ("javascript")))
        (req.language.getD ("javascript"))] := by
  simp [executeCode, h]

/-- Witness for C5 (amended): even an infinite loop declared as `python`
returns immediately with the capitalized unsupported-language error. -/
theorem unsupported_language_rejected_witness :
    (¬((some ("python") : Option String).getD ("javascript") = ("javascript") ∨
      (some ("python") : Option String).getD ("javascript") = ("js"))) ∧
    executeCode ⟨Expr.loopForever, some ("python")⟩ =
      [OutMsg.executionResult none
        (some (("Unsupported language: ") ++ ("python"))) ("python")] :=
  ⟨by decide,
    unsupported_language_rejected_without_execution ⟨Expr.loopForever, some ("python")⟩
      (by decide)⟩

/-- The round-trip program `console.log(1+1)`. -/
def roundTripProgram : Expr :=
  Expr.consoleLog [Expr.add (Expr.lit (JsValue.num 1)) (Expr.lit (JsValue.num 1))]

/-- C6: executing `console.log(1+1)` with language `javascript` first
streams a `console_output` event with output `2` (emitted during the run,
before the final message) and afterwards emits an `execution_result` with
null result and null error. -/
theorem round_trip_console_then_result :
    executeCode ⟨roundTripProgram, some ("javascript")⟩ =
      [OutMsg.consoleOutput ("2"), OutMsg.executionResult none none ("javascript")] := by
  simp [roundTripProgram, executeCode, vmRun, evalE, evalArgs, consoleLine, joinWith,
    jsDisplay, isObjectType, jsString, jsAdd, resultField, errorField]
  decide

/-- C7 counterexample: a program completing normally with value
`undefined` (here the bare literal) yields an `execution_result` whose
result AND error are both null, refuting the claim that exactly one of the
two fields is non-null. -/
theorem normal_completion_can_leave_both_fields_null :
    executeCode ⟨Expr.lit JsValue.undef, some ("javascript")⟩ =
      [OutMsg.executionResult none none ("javascript")] ∧
    ¬(Option.isSome (none : Option String) ≠ Option.isSome (none : Option String)) := by
  refine ⟨?_, by simp⟩
  simp [executeCode, vmRun, evalE, resultField, errorField]

/-- C7 (amended): for every supported-language request the final
`execution_result` carries `resultField` and `errorField` of the run's
outcome: a normal completion with a defined value puts its text coercion
in `result` with `error` null, a thrown error puts its message in `error`
with `result` null, and AT MOST one of the two fields is non-null — both
are null exactly when the program completes normally with `undefined`. -/
theorem execution_result_fields_characterization (req : ExecuteReq)
    (hsup : req.language.getD ("javascript") = ("javascript") ∨
      req.language.getD ("javascript") = ("js")) :
    executeCode req =
      (vmRun req.code).1.map OutMsg.consoleOutput ++
        [OutMsg.executionResult (resultField (vmRun req.code).2)
          (errorField (vmRun req.code).2) (req.language.getD ("javascript"))] ∧
    (resultField (vmRun req.code).2 = none ∨ errorField (vmRun req.code).2 = none) := by
  constructor
  · rcases hsup with h | h <;> simp [executeCode, h]
  · cases hoc : (vmRun req.code).2 <;> simp [resultField, errorField]

/-- Witness for C7 (amended): a program throwing `boom` populates `error`
and leaves `result` null. -/
theorem execution_result_fields_characterization_witness :
    ((some ("javascript") : Option String).getD ("javascript") = ("javascript") ∨
      (some ("javascript") : Option String).getD ("javascript") = ("js")) ∧
    (executeCode ⟨Expr.throwErr ("boom"), some ("javascript")⟩ =
      (vmRun (Expr.throwErr ("boom"))).1.map OutMsg.consoleOutput ++
        [OutMsg.executionResult (resultField (vmRun (Expr.throwErr ("boom"))).2)
          (errorField (vmRun (Expr.throwErr ("boom"))).2) ("javascript")] ∧
      (resultField (vmRun (Expr.throwErr ("boom"))).2 = none ∨
        errorField (vmRun (Expr.throwErr ("boom"))).2 = none)) :=
  ⟨Or.inl rfl,
    execution_result_fields_characterization ⟨Expr.throwErr ("boom"), some ("javascript")⟩
      (Or.inl rfl)⟩

/-- C8: `createFile` performs exactly the workspace mutation of
`writeFile` (same resulting store, for explicit content and for the
defaulted empty content), differing only in the success event tag
(`file_created` vs `file_written`); in particular on a pre-existing path
it overwrites (the path afterwards reads back the new content, for every
prior store) and never emits an already-exists error. -/
theorem create_file_refines_write_file (fs : FS) (p c : String) :
    (createFile fs p (some c)).1 = (writeFile fs p c).1 ∧
    (createFile fs p (some c)).2 = OutMsg.fileCreated p ∧
    (writeFile fs p c).2 = OutMsg.fileWritten p ∧
    (createFile fs p none).1 = (writeFile fs p ("")).1 ∧
    fsRead (createFile fs p (some c)).1 (joinPath workspaceDir p) = some c := by
  refine ⟨rfl, rfl, rfl, rfl, ?_⟩
  exact fsRead_fsWrite_self fs (joinPath workspaceDir p) c

/-- C9: an execution's response is a function of its request alone: a
fresh interpreter is constructed per call, so `execute_code` neither reads
nor writes server state — its response after ANY prior request history
(including a looping, timed-out execution) equals `executeCode` of the
request itself, and handling it leaves the workspace store untouched. -/
theorem execution_isolated_and_stateless (fs : FS) (rs : List Request) (req : ExecuteReq) :
    (handleRequest (runRequests fs rs) (Request.execute_code req)).2 = executeCode req ∧
    (handleRequest fs (Request.execute_code req)).1 = fs ∧
    (handleRequest
        (runRequests fs [Request.execute_code ⟨Expr.loopForever, some ("javascript")⟩])
        (Request.execute_code req)).2 = executeCode req :=
  ⟨rfl, rfl, rfl⟩

/-- C10: an `execute_code` request omitting the language field behaves
exactly as one declaring `javascript` (so it is executed, not rejected,
and echoes `javascript`), and declaring the alias `js` yields the same
console stream and the same result/error fields, with `js` echoed back in
the `execution_result`'s language field. -/
theorem language_default_and_js_alias (code : Expr) :
    executeCode ⟨code, none⟩ = executeCode ⟨code, some ("javascript")⟩ ∧
    executeCode ⟨code, some ("js")⟩ =
      (executeCode ⟨code, some ("javascript")⟩).map (setLang ("js")) := by
  have hmap : ∀ l : List String,
      (l.map OutMsg.consoleOutput).map (setLang ("js")) = l.map OutMsg.consoleOutput := by
    intro l
    induction l with
    | nil => rfl
    | cons a t ih => simp [setLang, ih]
  refine ⟨rfl, ?_⟩
  simp [executeCode, List.map_append, hmap, setLang]
